import Mathlib

/-!
Verification of the Quickroll_V2 real-time attendance core against its
natural-language specification.

The development shallowly embeds the Python modules under src/core/:

* recognizer.py         — similarity classification (Recognizer)
* attendance_manager.py — cooldown / marking decision engine (AttendanceManager)
* frame_tracker.py      — hybrid detect/track scheduler (FrameTracker, TrackedFace)
* face_validator.py     — landmark-based yaw estimation (FaceValidator)
* capture_manager.py    — pose-gated enrollment capture (CaptureManager)

External collaborators (OpenCV detector, SFace embedding model, SQLite store,
wall clock) are black boxes per the specification; their outputs (per-reference
similarity scores, tracker update success, persistence success, current time)
enter the embedding as explicit parameters.  Floating point similarity scores
and timestamps are modelled as rationals.
-/

namespace Quickroll

/-! ## Recognizer (src/core/recognizer.py) -/

/-- Recognition status returned by Recognizer.match_face_with_confidence. -/
inductive Status where
  | RECOGNIZED
  | MAYBE
  | UNKNOWN
deriving DecidableEq, Repr

/-- Recognizer.HIGH_CONFIDENCE = 0.75. -/
def HIGH_CONFIDENCE : ℚ := 3/4

/-- Recognizer.LOW_CONFIDENCE = 0.50. -/
def LOW_CONFIDENCE : ℚ := 1/2

/-- Recognizer.MIN_CONFIDENCE = 0.40. -/
def MIN_CONFIDENCE : ℚ := 2/5

/-- Enrollment database with the probe's similarity score against each stored
reference embedding already computed (the embedding model and
recognizer.match are external collaborators): for each enrolled identity, in
enrollment order, the list of per-reference similarity scores. -/
abbrev Enrolled := List (String × List ℚ)

/-- The inner loop of Recognizer._compute_all_scores: best score for one
student, starting from 0.0 and keeping any strictly larger score. -/
def bestScore (scores : List ℚ) : ℚ :=
  scores.foldl (fun b s => if s > b then s else b) 0

/-- Per-identity best scores in enrollment order (the list
Recognizer._compute_all_scores builds before sorting). -/
def scoresRaw (enrolled : Enrolled) : List (String × ℚ) :=
  enrolled.map (fun p => (p.1, bestScore p.2))

/-- Stable insertion (descending by score): an element is placed before the
first element whose score is not larger, hence before any equal-scored
element that occurs later in the input. -/
def insertDesc (x : String × ℚ) : List (String × ℚ) → List (String × ℚ)
  | [] => [x]
  | y :: ys => if x.2 ≥ y.2 then x :: y :: ys else y :: insertDesc x ys

/-- Stable sort, descending by score.  Python's list.sort(key=score,
reverse=True) is a stable descending sort, and a stable descending sort of a
list is unique, so this insertion sort computes exactly the list produced by
scores.sort in Recognizer._compute_all_scores. -/
def sortDesc (l : List (String × ℚ)) : List (String × ℚ) :=
  l.foldr insertDesc []

/-- Recognizer._compute_all_scores: per-identity best scores, sorted by score
descending (stable). -/
def computeAllScores (enrolled : Enrolled) : List (String × ℚ) :=
  sortDesc (scoresRaw enrolled)

/-- The threshold cascade at the end of Recognizer.match_face_with_confidence,
applied to the sorted score list. -/
def classifyTop : List (String × ℚ) → Option String × Status × ℚ
  | [] => (none, Status.UNKNOWN, 0)
  | (best_id, best_score) :: _ =>
    if best_score ≥ HIGH_CONFIDENCE then (some best_id, Status.RECOGNIZED, best_score)
    else if best_score ≥ LOW_CONFIDENCE then (some best_id, Status.MAYBE, best_score)
    else (none, Status.UNKNOWN, best_score)

/-- Recognizer.match_face_with_confidence, after a successful embedding:
classify the top score into RECOGNIZED / MAYBE / UNKNOWN bands. -/
def matchFaceWithConfidence (enrolled : Enrolled) : Option String × Status × ℚ :=
  classifyTop (computeAllScores enrolled)

/-- Recognizer.get_top_matches: the first top_n sorted entries, keeping those
with score at least MIN_CONFIDENCE. -/
def getTopMatches (enrolled : Enrolled) (top_n : ℕ) : List (String × ℚ) :=
  ((computeAllScores enrolled).take top_n).filter (fun p => p.2 ≥ MIN_CONFIDENCE)

/-! ### Recognizer lemmas -/

theorem mem_insertDesc {a x : String × ℚ} {l : List (String × ℚ)} :
    a ∈ insertDesc x l ↔ a = x ∨ a ∈ l := by
  induction l with
  | nil => simp [insertDesc]
  | cons y ys ih =>
    by_cases h : x.2 ≥ y.2
    · simp [insertDesc, h]
    · simp only [insertDesc, if_neg h, List.mem_cons, ih]
      tauto

theorem pairwise_insertDesc {x : String × ℚ} {l : List (String × ℚ)}
    (h : l.Pairwise (fun a b => b.2 ≤ a.2)) :
    (insertDesc x l).Pairwise (fun a b => b.2 ≤ a.2) := by
  induction l with
  | nil => simp [insertDesc]
  | cons y ys ih =>
    rcases List.pairwise_cons.mp h with ⟨hy, hys⟩
    by_cases hxy : x.2 ≥ y.2
    · simp only [insertDesc, if_pos hxy]
      refine List.pairwise_cons.mpr ⟨?_, h⟩
      intro b hb
      rcases List.mem_cons.mp hb with hb | hb
      · exact hb ▸ hxy
      · exact le_trans (hy b hb) hxy
    · simp only [insertDesc, if_neg hxy]
      refine List.pairwise_cons.mpr ⟨?_, ih hys⟩
      intro b hb
      rcases mem_insertDesc.mp hb with hb | hb
      · exact hb ▸ le_of_lt (lt_of_not_ge hxy)
      · exact hy b hb

theorem pairwise_sortDesc (l : List (String × ℚ)) :
    (sortDesc l).Pairwise (fun a b => b.2 ≤ a.2) := by
  induction l with
  | nil => simp [sortDesc]
  | cons x xs ih => exact pairwise_insertDesc ih

theorem mem_sortDesc {a : String × ℚ} {l : List (String × ℚ)} :
    a ∈ sortDesc l ↔ a ∈ l := by
  induction l with
  | nil => simp [sortDesc]
  | cons x xs ih =>
    simp only [sortDesc, List.foldr_cons] at *
    rw [mem_insertDesc, ih]
    simp

/-- Stability of the descending sort: filtering by any fixed score value
returns the entries with that score in their original (enrollment) order. -/
theorem filter_insertDesc (x : String × ℚ) (l : List (String × ℚ)) (q : ℚ) :
    (insertDesc x l).filter (fun p => p.2 = q) =
      if x.2 = q then x :: l.filter (fun p => p.2 = q)
      else l.filter (fun p => p.2 = q) := by
  induction l with
  | nil =>
    simp only [insertDesc]
    by_cases hx : x.2 = q <;> simp [List.filter_cons, hx]
  | cons y ys ih =>
    by_cases hxy : x.2 ≥ y.2
    · simp only [insertDesc, if_pos hxy]
      by_cases hx : x.2 = q <;> by_cases hy : y.2 = q <;>
        simp [List.filter_cons, hx, hy]
    · simp only [insertDesc, if_neg hxy]
      have hylt : x.2 < y.2 := lt_of_not_ge hxy
      by_cases hx : x.2 = q
      · have hy : ¬ y.2 = q := by
          intro hcontra
          rw [hx, ← hcontra] at hylt
          exact lt_irrefl _ hylt
        simp [List.filter_cons, hy, ih, hx]
      · by_cases hy : y.2 = q <;> simp [List.filter_cons, hy, ih, hx]

theorem filter_sortDesc (l : List (String × ℚ)) (q : ℚ) :
    (sortDesc l).filter (fun p => p.2 = q) = l.filter (fun p => p.2 = q) := by
  induction l with
  | nil => simp [sortDesc]
  | cons x xs ih =>
    simp only [sortDesc, List.foldr_cons] at *
    rw [filter_insertDesc]
    by_cases hx : x.2 = q
    · simp [List.filter_cons, hx, ih]
    · simp [List.filter_cons, hx, ih]

theorem foldMax_le_init (b : ℚ) (l : List ℚ) :
    b ≤ l.foldl (fun b s => if s > b then s else b) b := by
  induction l generalizing b with
  | nil => simp
  | cons t ts ih =>
    simp only [List.foldl_cons]
    by_cases ht : t > b
    · simp only [if_pos ht]
      exact le_trans (le_of_lt ht) (ih t)
    · simp only [if_neg ht]
      exact ih b

theorem foldMax_ge_mem {r : ℚ} {l : List ℚ} (h : r ∈ l) (b : ℚ) :
    r ≤ l.foldl (fun b s => if s > b then s else b) b := by
  induction l generalizing b with
  | nil => cases h
  | cons t ts ih =>
    simp only [List.foldl_cons]
    rcases List.mem_cons.mp h with rfl | hmem
    · refine le_trans ?_ (foldMax_le_init (if r > b then r else b) ts)
      by_cases hr : r > b
      · simp [hr]
      · simp only [if_neg hr]
        exact le_of_not_gt hr
    · exact ih hmem _

theorem foldMax_mem_or_init (b : ℚ) (l : List ℚ) :
    l.foldl (fun b s => if s > b then s else b) b ∈ l ∨
      l.foldl (fun b s => if s > b then s else b) b = b := by
  induction l generalizing b with
  | nil => simp
  | cons t ts ih =>
    simp only [List.foldl_cons]
    by_cases ht : t > b
    · simp only [if_pos ht]
      rcases ih t with h | h
      · exact Or.inl (List.mem_cons_of_mem _ h)
      · refine Or.inl ?_
        rw [h]
        exact List.mem_cons_self _ _
    · simp only [if_neg ht]
      rcases ih b with h | h
      · exact Or.inl (List.mem_cons_of_mem _ h)
      · exact Or.inr h

theorem bestScore_ge {r : ℚ} {scores : List ℚ} (h : r ∈ scores) :
    r ≤ bestScore scores :=
  foldMax_ge_mem h 0

theorem bestScore_mem_or_zero (scores : List ℚ) :
    bestScore scores ∈ scores ∨ bestScore scores = 0 :=
  foldMax_mem_or_init 0 scores

/-- Claim C1: match_face_with_confidence takes the top enrolled score s and
returns (top identity, RECOGNIZED, s) when s is at least HIGH (0.75),
(top identity, MAYBE, s) when s is in [0.50, 0.75), and (none, UNKNOWN, s)
with the identity suppressed when s is below 0.50; in particular with only
"S1" enrolled, probes scoring 0.80 / 0.60 / 0.30 give (S1, RECOGNIZED, 0.80),
(S1, MAYBE, 0.60) and (none, UNKNOWN, 0.30). -/
theorem C1_classify_bands :
    (∀ (enrolled : Enrolled) (top_id : String) (s : ℚ) (rest : List (String × ℚ)),
      computeAllScores enrolled = (top_id, s) :: rest →
        ((HIGH_CONFIDENCE ≤ s →
            matchFaceWithConfidence enrolled = (some top_id, Status.RECOGNIZED, s)) ∧
         (LOW_CONFIDENCE ≤ s → s < HIGH_CONFIDENCE →
            matchFaceWithConfidence enrolled = (some top_id, Status.MAYBE, s)) ∧
         (s < LOW_CONFIDENCE →
            matchFaceWithConfidence enrolled = (none, Status.UNKNOWN, s)))) ∧
    matchFaceWithConfidence [("S1", [4/5])] = (some "S1", Status.RECOGNIZED, 4/5) ∧
    matchFaceWithConfidence [("S1", [3/5])] = (some "S1", Status.MAYBE, 3/5) ∧
    matchFaceWithConfidence [("S1", [3/10])] = (none, Status.UNKNOWN, 3/10) := by
  have hmain : ∀ (enrolled : Enrolled) (top_id : String) (s : ℚ) (rest : List (String × ℚ)),
      computeAllScores enrolled = (top_id, s) :: rest →
        ((HIGH_CONFIDENCE ≤ s →
            matchFaceWithConfidence enrolled = (some top_id, Status.RECOGNIZED, s)) ∧
         (LOW_CONFIDENCE ≤ s → s < HIGH_CONFIDENCE →
            matchFaceWithConfidence enrolled = (some top_id, Status.MAYBE, s)) ∧
         (s < LOW_CONFIDENCE →
            matchFaceWithConfidence enrolled = (none, Status.UNKNOWN, s))) := by
    intro enrolled top_id s rest h
    unfold matchFaceWithConfidence
    rw [h]
    refine ⟨?_, ?_, ?_⟩
    · intro hs
      simp only [classifyTop, if_pos (show s ≥ HIGH_CONFIDENCE from hs)]
    · intro hlo hhi
      simp only [classifyTop, if_neg (not_le.mpr hhi),
        if_pos (show s ≥ LOW_CONFIDENCE from hlo)]
    · intro hs
      have h1 : ¬ s ≥ HIGH_CONFIDENCE := by
        intro hcontra
        have hlt : LOW_CONFIDENCE < HIGH_CONFIDENCE := by
          norm_num [LOW_CONFIDENCE, HIGH_CONFIDENCE]
        exact absurd (lt_trans hs hlt) (not_lt.mpr hcontra)
      have h2 : ¬ s ≥ LOW_CONFIDENCE := not_le.mpr hs
      simp only [classifyTop, if_neg h1, if_neg h2]
  refine ⟨hmain, ?_, ?_, ?_⟩
  · exact (hmain [("S1", [4/5])] "S1" (4/5) []
      (by norm_num [computeAllScores, scoresRaw, sortDesc, insertDesc, bestScore])).1
      (by norm_num [HIGH_CONFIDENCE])
  · exact (hmain [("S1", [3/5])] "S1" (3/5) []
      (by norm_num [computeAllScores, scoresRaw, sortDesc, insertDesc, bestScore])).2.1
      (by norm_num [LOW_CONFIDENCE]) (by norm_num [HIGH_CONFIDENCE])
  · exact (hmain [("S1", [3/10])] "S1" (3/10) []
      (by norm_num [computeAllScores, scoresRaw, sortDesc, insertDesc, bestScore])).2.2
      (by norm_num [LOW_CONFIDENCE])

/-- Witness for C1: the general band statement applied to a concrete
one-identity enrollment with top score 0.9. -/
theorem C1_classify_bands_witness :
    matchFaceWithConfidence [("A", [9/10])] = (some "A", Status.RECOGNIZED, 9/10) := by
  have h := (C1_classify_bands.1 [("A", [9/10])] "A" (9/10) []
    (by norm_num [computeAllScores, scoresRaw, sortDesc, insertDesc, bestScore])).1
  exact h (by norm_num [HIGH_CONFIDENCE])

/-- Claim C8: get_top_matches returns a list sorted by score descending, of
length at most top_n, containing only entries with score at least
MIN_CONFIDENCE (0.40); every returned score is the maximum similarity across
that identity's stored reference embeddings; and entries with equal scores
appear in enrollment order (the sort is stable). -/
theorem C8_top_matches (enrolled : Enrolled) (top_n : ℕ) :
    (getTopMatches enrolled top_n).Pairwise (fun a b => b.2 ≤ a.2) ∧
    (getTopMatches enrolled top_n).length ≤ top_n ∧
    (∀ p ∈ getTopMatches enrolled top_n, MIN_CONFIDENCE ≤ p.2) ∧
    (∀ p ∈ getTopMatches enrolled top_n,
      ∃ refs : List ℚ, (p.1, refs) ∈ enrolled ∧ p.2 = bestScore refs ∧
        (∀ r ∈ refs, r ≤ p.2) ∧ p.2 ∈ refs) ∧
    (∀ q : ℚ, ((getTopMatches enrolled top_n).filter (fun p => p.2 = q)).Sublist
        ((scoresRaw enrolled).filter (fun p => p.2 = q))) := by
  have hsub : (getTopMatches enrolled top_n).Sublist (computeAllScores enrolled) :=
    List.Sublist.trans (List.filter_sublist _)
      (List.take_sublist top_n (computeAllScores enrolled))
  have hmin : ∀ p ∈ getTopMatches enrolled top_n, MIN_CONFIDENCE ≤ p.2 := by
    intro p hp
    have := (List.mem_filter.mp hp).2
    exact of_decide_eq_true this
  refine ⟨?_, ?_, hmin, ?_, ?_⟩
  · exact (pairwise_sortDesc (scoresRaw enrolled)).sublist hsub
  · calc (getTopMatches enrolled top_n).length
        ≤ ((computeAllScores enrolled).take top_n).length :=
          List.length_filter_le _ _
      _ ≤ top_n := by
          rw [List.length_take]
          exact min_le_left _ _
  · intro p hp
    have hmem : p ∈ scoresRaw enrolled := mem_sortDesc.mp (hsub.mem hp)
    rcases List.mem_map.mp hmem with ⟨pair, hpair, heq⟩
    refine ⟨pair.2, ?_, ?_, ?_, ?_⟩
    · have : (p.1, pair.2) = pair := by
        rw [← heq]
      rw [this]
      exact hpair
    · rw [← heq]
    · intro r hr
      rw [← heq]
      exact bestScore_ge hr
    · rcases bestScore_mem_or_zero pair.2 with h | h
      · rw [← heq]
        exact h
      · exfalso
        have hp2 : MIN_CONFIDENCE ≤ p.2 := hmin p hp
        rw [← heq] at hp2
        rw [h] at hp2
        norm_num [MIN_CONFIDENCE] at hp2
  · intro q
    have h1 : ((getTopMatches enrolled top_n).filter (fun p => p.2 = q)).Sublist
        (((computeAllScores enrolled).take top_n).filter (fun p => p.2 = q)) := by
      unfold getTopMatches
      exact List.Sublist.filter _ (List.filter_sublist _)
    have h2 : (((computeAllScores enrolled).take top_n).filter (fun p => p.2 = q)).Sublist
        ((computeAllScores enrolled).filter (fun p => p.2 = q)) :=
      List.Sublist.filter _ (List.take_sublist top_n _)
    have h3 : (computeAllScores enrolled).filter (fun p => p.2 = q) =
        (scoresRaw enrolled).filter (fun p => p.2 = q) :=
      filter_sortDesc (scoresRaw enrolled) q
    exact (h1.trans h2).trans (h3 ▸ List.Sublist.refl _)

/-- Witness for C8: the guarantees instantiated on a concrete two-identity
enrollment, discharging the membership hypothesis for the top entry. -/
theorem C8_top_matches_witness :
    MIN_CONFIDENCE ≤ (9/10 : ℚ) ∧
    (getTopMatches [("A", [1/2]), ("B", [9/10])] 2).length ≤ 2 := by
  have hlist : getTopMatches [("A", [1/2]), ("B", [9/10])] 2 =
      [("B", 9/10), ("A", 1/2)] := by
    norm_num [getTopMatches, computeAllScores, scoresRaw, sortDesc, insertDesc,
      bestScore, MIN_CONFIDENCE, List.filter_cons]
  constructor
  · have h := (C8_top_matches [("A", [1/2]), ("B", [9/10])] 2).2.2.1 ("B", 9/10)
      (by rw [hlist]; simp)
    simpa using h
  · exact (C8_top_matches [("A", [1/2]), ("B", [9/10])] 2).2.1

/-! ## AttendanceManager (src/core/attendance_manager.py)

attendance_manager.py repeats the numeric constants HIGH_CONFIDENCE = 0.75 and
LOW_CONFIDENCE = 0.50 of recognizer.py; the shared constants above are reused.
The SQLite store and the wall clock are external: the outcome of
db.mark_attendance and the value of time.time() enter as parameters. -/

/-- One row of AttendanceManager.today_log (the in-memory cache record built
in mark_attendance; the display time string is modelled by the timestamp). -/
structure AttRecord where
  sid : String
  name : String
  time : ℚ
  confidence : ℚ
  markedBy : String
deriving DecidableEq, Repr

/-- Mutable state of an AttendanceManager: cooldown_seconds, the last_marked
dictionary (most recent entry first) and today_log. -/
structure AMState where
  cooldown : ℚ
  lastMarked : List (String × ℚ)
  todayLog : List AttRecord
deriving DecidableEq, Repr

/-- self.last_marked.get(student_id, 0): first matching entry, default 0. -/
def lookupTime : List (String × ℚ) → String → ℚ
  | [], _ => 0
  | p :: ps, k => if p.1 = k then p.2 else lookupTime ps k

/-- One invocation of AttendanceManager.mark_attendance, with the wall clock
reading (now) and the persistence outcome (dbOk) as explicit inputs. -/
structure MarkCall where
  sid : String
  name : String
  confidence : ℚ
  now : ℚ
  dbOk : Bool
deriving DecidableEq, Repr

/-- AttendanceManager.mark_attendance: reject while in cooldown, then write to
the store (failure returns without mutation), then append to today_log and
set last_marked[student_id] = now. -/
def markAttendance (st : AMState) (c : MarkCall) : Bool × AMState :=
  if c.now - lookupTime st.lastMarked c.sid < st.cooldown then (false, st)
  else if c.dbOk = false then (false, st)
  else (true,
    { st with
      todayLog := st.todayLog ++ [⟨c.sid, c.name, c.now, c.confidence, "face_recognition"⟩],
      lastMarked := (c.sid, c.now) :: st.lastMarked })

/-- A sequence of mark_attendance calls threaded through the manager state,
paired with each call's returned success flag. -/
def runMarks (st : AMState) : List MarkCall → List (MarkCall × Bool)
  | [] => []
  | c :: cs => (c, (markAttendance st c).1) :: runMarks (markAttendance st c).2 cs

/-! ### AttendanceManager lemmas -/

theorem markAttendance_cooldown_const (st : AMState) (c : MarkCall) :
    (markAttendance st c).2.cooldown = st.cooldown := by
  unfold markAttendance
  split_ifs <;> rfl

theorem lookupTime_cons (p : String × ℚ) (l : List (String × ℚ)) (k : String) :
    lookupTime (p :: l) k = if p.1 = k then p.2 else lookupTime l k := rfl

theorem lookupTime_eq_zero {l : List (String × ℚ)} {k : String}
    (h : ∀ p ∈ l, p.1 ≠ k) : lookupTime l k = 0 := by
  induction l with
  | nil => rfl
  | cons p ps ih =>
    rw [lookupTime_cons, if_neg (h p (List.mem_cons_self _ _))]
    exact ih (fun q hq => h q (List.mem_cons_of_mem _ hq))

theorem markAttendance_true_iff (st : AMState) (c : MarkCall) :
    (markAttendance st c).1 = true ↔
      (st.cooldown ≤ c.now - lookupTime st.lastMarked c.sid ∧ c.dbOk = true) := by
  unfold markAttendance
  split_ifs with h1 h2
  · simp [not_le.mpr h1]
  · simp [h2]
  · constructor
    · intro _
      refine ⟨not_lt.mp h1, ?_⟩
      cases hdb : c.dbOk
      · exact absurd hdb h2
      · rfl
    · intro _
      rfl

theorem lookupTime_le_markAttendance (st : AMState) (c : MarkCall) (k : String)
    (h0 : 0 ≤ st.cooldown) :
    lookupTime st.lastMarked k ≤ lookupTime (markAttendance st c).2.lastMarked k := by
  unfold markAttendance
  split_ifs with h1 h2
  · exact le_refl _
  · exact le_refl _
  · show lookupTime st.lastMarked k ≤ lookupTime ((c.sid, c.now) :: st.lastMarked) k
    rw [lookupTime_cons]
    by_cases hk : c.sid = k
    · rw [if_pos hk]
      have hle : st.cooldown ≤ c.now - lookupTime st.lastMarked c.sid := not_lt.mp h1
      rw [hk] at hle
      show lookupTime st.lastMarked k ≤ c.now
      linarith
    · rw [if_neg hk]

theorem lookupTime_markAttendance_self (st : AMState) (c : MarkCall)
    (h : (markAttendance st c).1 = true) :
    lookupTime (markAttendance st c).2.lastMarked c.sid = c.now := by
  have hc := (markAttendance_true_iff st c).mp h
  unfold markAttendance
  rw [if_neg (not_lt.mpr hc.1), if_neg (by simp [hc.2])]
  show lookupTime ((c.sid, c.now) :: st.lastMarked) c.sid = c.now
  rw [lookupTime_cons, if_pos rfl]

/-- Any later accepted mark is at least one cooldown after the last-marked
time recorded in the starting state for its identity. -/
theorem runMarks_success_lower (cs : List MarkCall) :
    ∀ (st : AMState) (l1 l2 : List (MarkCall × Bool)) (c : MarkCall),
      0 ≤ st.cooldown →
      runMarks st cs = l1 ++ (c, true) :: l2 →
      st.cooldown ≤ c.now - lookupTime st.lastMarked c.sid := by
  induction cs with
  | nil =>
    intro st l1 l2 c _ h
    simp [runMarks] at h
  | cons c0 cs ih =>
    intro st l1 l2 c h0 h
    cases l1 with
    | nil =>
      rw [runMarks, List.nil_append] at h
      injection h with hpair _
      have hc : c0 = c := congrArg Prod.fst hpair
      have htrue : (markAttendance st c0).1 = true := congrArg Prod.snd hpair
      subst hc
      exact ((markAttendance_true_iff st c0).mp htrue).1
    | cons x l1' =>
      rw [runMarks, List.cons_append] at h
      injection h with _ hrest
      have hcool : (markAttendance st c0).2.cooldown = st.cooldown :=
        markAttendance_cooldown_const st c0
      have h0' : 0 ≤ (markAttendance st c0).2.cooldown := hcool ▸ h0
      have hih := ih (markAttendance st c0).2 l1' l2 c h0' hrest
      rw [hcool] at hih
      have hmono := lookupTime_le_markAttendance st c0 c.sid h0
      linarith

/-- Claim C2 fails as stated: from a fresh state (no prior record for "S1")
with a successful persistence write, mark_attendance still returns failure
when the clock reads 100 seconds, because the missing record defaults to a
last-marked time of 0 and 100 − 0 < 900. -/
theorem C2_counterexample :
    (markAttendance ⟨900, [], []⟩ ⟨"S1", "Alice", 9/10, 100, true⟩).1 = false ∧
    (markAttendance ⟨900, [], []⟩ ⟨"S1", "Alice", 9/10, 100, true⟩).2 = ⟨900, [], []⟩ := by
  constructor <;> norm_num [markAttendance, lookupTime]

/-- Claim C2 (amended): for every identity and every sequence of
mark_attendance calls, two calls for the same identity that both return
success are never less than cooldown_seconds apart; and the first mark for an
identity with no prior record succeeds whenever the persistence write
succeeds AND the wall-clock time is at least cooldown_seconds (the code
treats a missing record as last-marked at time 0). -/
theorem C2_cooldown_invariant :
    (∀ (cs : List MarkCall) (st : AMState) (l1 l2 l3 : List (MarkCall × Bool))
        (c1 c2 : MarkCall),
      0 ≤ st.cooldown →
      runMarks st cs = l1 ++ (c1, true) :: l2 ++ (c2, true) :: l3 →
      c1.sid = c2.sid →
      st.cooldown ≤ c2.now - c1.now) ∧
    (∀ (st : AMState) (c : MarkCall),
      (∀ p ∈ st.lastMarked, p.1 ≠ c.sid) →
      st.cooldown ≤ c.now → c.dbOk = true →
      (markAttendance st c).1 = true) := by
  constructor
  · intro cs
    induction cs with
    | nil =>
      intro st l1 l2 l3 c1 c2 _ h _
      simp [runMarks] at h
    | cons c0 cs ih =>
      intro st l1 l2 l3 c1 c2 h0 h hsid
      cases l1 with
      | nil =>
        rw [runMarks, List.nil_append] at h
        injection h with hpair hrest
        have hc : c0 = c1 := congrArg Prod.fst hpair
        have htrue : (markAttendance st c0).1 = true := congrArg Prod.snd hpair
        subst hc
        have hcool : (markAttendance st c0).2.cooldown = st.cooldown :=
          markAttendance_cooldown_const st c0
        have h0' : 0 ≤ (markAttendance st c0).2.cooldown := hcool ▸ h0
        have hlow := runMarks_success_lower cs (markAttendance st c0).2 l2 l3 c2 h0' hrest
        rw [hcool] at hlow
        have hself := lookupTime_markAttendance_self st c0 htrue
        rw [← hsid, hself] at hlow
        exact hlow
      | cons x l1' =>
        rw [runMarks, List.cons_append] at h
        injection h with _ hrest
        have hcool : (markAttendance st c0).2.cooldown = st.cooldown :=
          markAttendance_cooldown_const st c0
        have h0' : 0 ≤ (markAttendance st c0).2.cooldown := hcool ▸ h0
        have := ih (markAttendance st c0).2 l1' l2 l3 c1 c2 h0' hrest hsid
        rw [hcool] at this
        exact this
  · intro st c habsent hcool hdb
    rw [markAttendance_true_iff, lookupTime_eq_zero habsent]
    exact ⟨by linarith, hdb⟩

/-- Witness for C2 (amended): a concrete two-call trace for identity "S1"
(marks at t = 1000 and t = 1900, cooldown 900) instantiates the separation
invariant, and a concrete fresh-state mark at t = 2000 succeeds. -/
theorem C2_cooldown_invariant_witness :
    ((900 : ℚ) ≤ 1900 - 1000) ∧
    (markAttendance ⟨900, [], []⟩ ⟨"S2", "Bob", 9/10, 2000, true⟩).1 = true := by
  constructor
  · exact C2_cooldown_invariant.1
      [⟨"S1", "Alice", 9/10, 1000, true⟩, ⟨"S1", "Alice", 9/10, 1900, true⟩]
      ⟨900, [], []⟩ [] [] []
      ⟨"S1", "Alice", 9/10, 1000, true⟩ ⟨"S1", "Alice", 9/10, 1900, true⟩
      (by norm_num)
      (by norm_num [runMarks, markAttendance, lookupTime])
      rfl
  · exact C2_cooldown_invariant.2 ⟨900, [], []⟩ ⟨"S2", "Bob", 9/10, 2000, true⟩
      (by simp) (by norm_num) rfl

/-- Claim C4: a failed persistence write during mark_attendance returns
failure and leaves the whole state (cooldown table and today's log)
unchanged, so no cooldown window starts and a later retry for the same
identity with a successful write still succeeds once outside any prior
cooldown window. -/
theorem C4_persistence_failure_no_mutation :
    (∀ (st : AMState) (c : MarkCall), c.dbOk = false →
      markAttendance st c = (false, st)) ∧
    (∀ (st : AMState) (c c' : MarkCall), c.dbOk = false →
      c'.sid = c.sid → c'.dbOk = true →
      st.cooldown ≤ c'.now - lookupTime st.lastMarked c.sid →
      (markAttendance (markAttendance st c).2 c').1 = true) := by
  have hfail : ∀ (st : AMState) (c : MarkCall), c.dbOk = false →
      markAttendance st c = (false, st) := by
    intro st c hdb
    unfold markAttendance
    split_ifs <;> rfl
  refine ⟨hfail, ?_⟩
  intro st c c' hdb hsid hdb' hcool
  rw [hfail st c hdb]
  rw [markAttendance_true_iff]
  rw [hsid]
  exact ⟨hcool, hdb'⟩

/-- Witness for C4: a concrete failed write at t = 5000 leaves the state
unchanged and a retry at t = 5100 succeeds. -/
theorem C4_persistence_failure_no_mutation_witness :
    markAttendance ⟨900, [("S1", 1)], []⟩ ⟨"S1", "Alice", 9/10, 5000, false⟩ =
      (false, ⟨900, [("S1", 1)], []⟩) ∧
    (markAttendance
      (markAttendance ⟨900, [("S1", 1)], []⟩ ⟨"S1", "Alice", 9/10, 5000, false⟩).2
      ⟨"S1", "Alice", 9/10, 5100, true⟩).1 = true := by
  constructor
  · exact C4_persistence_failure_no_mutation.1 ⟨900, [("S1", 1)], []⟩
      ⟨"S1", "Alice", 9/10, 5000, false⟩ rfl
  · exact C4_persistence_failure_no_mutation.2 ⟨900, [("S1", 1)], []⟩
      ⟨"S1", "Alice", 9/10, 5000, false⟩ ⟨"S1", "Alice", 9/10, 5100, true⟩
      rfl rfl rfl (by norm_num [lookupTime])

/-- Action field of the dict returned by
AttendanceManager.should_mark_attendance. -/
inductive MarkAction where
  | AUTO_MARK
  | MAYBE
  | UNKNOWN
  | COOLDOWN
deriving DecidableEq, Repr

/-- Result dict of AttendanceManager.should_mark_attendance (the display
message is omitted; status is the status string of the dict). -/
structure Decision where
  action : MarkAction
  status : String
  requiresVerification : Bool
  canMark : Bool
deriving DecidableEq, Repr

/-- The confidence-band part of should_mark_attendance (reached when no
cooldown early-return fires). -/
def classifyConfidence (confidence : ℚ) : Decision :=
  if confidence ≥ HIGH_CONFIDENCE then
    ⟨MarkAction.AUTO_MARK, "RECOGNIZED", false, true⟩
  else if confidence ≥ LOW_CONFIDENCE then
    ⟨MarkAction.MAYBE, "MAYBE", true, true⟩
  else
    ⟨MarkAction.UNKNOWN, "NOT_RECOGNIZED", true, true⟩

/-- Python truthiness of the student_id argument: None and the empty string
are falsy (the integer 0 is likewise falsy and is not representable here). -/
def truthyId : Option String → Bool
  | none => false
  | some s => decide (s ≠ "")

/-- AttendanceManager.should_mark_attendance: the cooldown early-return is
guarded by the truthiness of student_id; otherwise classify by confidence. -/
def shouldMarkAttendance (st : AMState) (confidence : ℚ) :
    Option String → ℚ → Decision
  | some s, now =>
    if s ≠ "" ∧ now - lookupTime st.lastMarked s < st.cooldown then
      ⟨MarkAction.COOLDOWN, "NOT_RECOGNIZED", true, false⟩
    else classifyConfidence confidence
  | none, _ => classifyConfidence confidence

/-- Claim C9: with a falsy student_id (None or the empty string) the cooldown
check in should_mark_attendance is skipped entirely: for every confidence and
state the action is never COOLDOWN and can_mark stays true; and for a truthy
student_id inside its cooldown window the call returns the COOLDOWN decision
with can_mark false. -/
theorem C9_falsy_skips_cooldown :
    (∀ (st : AMState) (confidence : ℚ) (student_id : Option String) (now : ℚ),
      truthyId student_id = false →
      (shouldMarkAttendance st confidence student_id now).action ≠ MarkAction.COOLDOWN ∧
      (shouldMarkAttendance st confidence student_id now).canMark = true) ∧
    (∀ (st : AMState) (confidence : ℚ) (s : String) (now : ℚ),
      s ≠ "" → now - lookupTime st.lastMarked s < st.cooldown →
      shouldMarkAttendance st confidence (some s) now =
        ⟨MarkAction.COOLDOWN, "NOT_RECOGNIZED", true, false⟩) := by
  have hclass : ∀ confidence : ℚ,
      (classifyConfidence confidence).action ≠ MarkAction.COOLDOWN ∧
      (classifyConfidence confidence).canMark = true := by
    intro confidence
    unfold classifyConfidence
    split_ifs <;> exact ⟨by simp, rfl⟩
  constructor
  · intro st confidence student_id now hfalsy
    match student_id with
    | none => exact hclass confidence
    | some s =>
      have hs : s = "" := by
        have := hfalsy
        unfold truthyId at this
        simpa using this
      have heq : shouldMarkAttendance st confidence (some s) now =
          classifyConfidence confidence := by
        show (if s ≠ "" ∧ now - lookupTime st.lastMarked s < st.cooldown then
            (⟨MarkAction.COOLDOWN, "NOT_RECOGNIZED", true, false⟩ : Decision)
          else classifyConfidence confidence) = _
        rw [if_neg (by simp [hs])]
      rw [heq]
      exact hclass confidence
  · intro st confidence s now hs hcool
    show (if s ≠ "" ∧ now - lookupTime st.lastMarked s < st.cooldown then
        (⟨MarkAction.COOLDOWN, "NOT_RECOGNIZED", true, false⟩ : Decision)
      else classifyConfidence confidence) = _
    rw [if_pos ⟨hs, hcool⟩]

/-- Witness for C9: a falsy id (none) with the identity recently marked still
yields can_mark = true and no COOLDOWN action, while the truthy id "S1" in
the same state hits the cooldown. -/
theorem C9_falsy_skips_cooldown_witness :
    ((shouldMarkAttendance ⟨900, [("S1", 50)], []⟩ (9/10) none 60).action ≠
        MarkAction.COOLDOWN ∧
      (shouldMarkAttendance ⟨900, [("S1", 50)], []⟩ (9/10) none 60).canMark = true) ∧
    shouldMarkAttendance ⟨900, [("S1", 50)], []⟩ (9/10) (some "S1") 60 =
      ⟨MarkAction.COOLDOWN, "NOT_RECOGNIZED", true, false⟩ := by
  constructor
  · exact C9_falsy_skips_cooldown.1 ⟨900, [("S1", 50)], []⟩ (9/10) none 60 rfl
  · exact C9_falsy_skips_cooldown.2 ⟨900, [("S1", 50)], []⟩ (9/10) "S1" 60
      (by simp) (by norm_num [lookupTime])

/-! ## FrameTracker (src/core/frame_tracker.py)

Boxes are (x, y, w, h) with integer coordinates (detections are cast with
astype(int) before use).  The OpenCV trackers and the detector are external:
a tracking pass takes each track's update success as an input, and a
detection pass takes the list of detected boxes as an input. -/

/-- A bounding box (x, y, w, h). -/
abbrev Box := ℤ × ℤ × ℤ × ℤ

/-- FrameTracker._compute_iou. -/
def computeIou (box1 box2 : Box) : ℚ :=
  let x1 := box1.1
  let y1 := box1.2.1
  let w1 := box1.2.2.1
  let h1 := box1.2.2.2
  let x2 := box2.1
  let y2 := box2.2.1
  let w2 := box2.2.2.1
  let h2 := box2.2.2.2
  let inter_x1 := max x1 x2
  let inter_y1 := max y1 y2
  let inter_x2 := min (x1 + w1) (x2 + w2)
  let inter_y2 := min (y1 + h1) (y2 + h2)
  if inter_x2 ≤ inter_x1 ∨ inter_y2 ≤ inter_y1 then 0
  else
    let inter_area := (inter_x2 - inter_x1) * (inter_y2 - inter_y1)
    let union_area := w1 * h1 + w2 * h2 - inter_area
    if union_area ≤ 0 then 0
    else (inter_area : ℚ) / (union_area : ℚ)

/-- Claim C10: for boxes with nonnegative widths and heights _compute_iou is
total with value in [0, 1]; it returns 0 when the boxes do not overlap and
when the union area is not positive, so the division is always guarded. -/
theorem C10_iou_bounds (x1 y1 w1 h1 x2 y2 w2 h2 : ℤ)
    (hw1 : 0 ≤ w1) (hh1 : 0 ≤ h1) (hw2 : 0 ≤ w2) (hh2 : 0 ≤ h2) :
    0 ≤ computeIou (x1, y1, w1, h1) (x2, y2, w2, h2) ∧
    computeIou (x1, y1, w1, h1) (x2, y2, w2, h2) ≤ 1 ∧
    ((min (x1 + w1) (x2 + w2) ≤ max x1 x2 ∨ min (y1 + h1) (y2 + h2) ≤ max y1 y2) →
      computeIou (x1, y1, w1, h1) (x2, y2, w2, h2) = 0) ∧
    (w1 * h1 + w2 * h2 -
        (min (x1 + w1) (x2 + w2) - max x1 x2) * (min (y1 + h1) (y2 + h2) - max y1 y2) ≤ 0 →
      computeIou (x1, y1, w1, h1) (x2, y2, w2, h2) = 0) := by
  unfold computeIou
  by_cases hno : min (x1 + w1) (x2 + w2) ≤ max x1 x2 ∨ min (y1 + h1) (y2 + h2) ≤ max y1 y2
  · rw [if_pos hno]
    exact ⟨le_refl 0, by norm_num, fun _ => rfl, fun _ => rfl⟩
  · rw [if_neg hno]
    push_neg at hno
    obtain ⟨hx, hy⟩ := hno
    set ix1 := max x1 x2 with hix1
    set iy1 := max y1 y2 with hiy1
    set ix2 := min (x1 + w1) (x2 + w2) with hix2
    set iy2 := min (y1 + h1) (y2 + h2) with hiy2
    have hiw : 0 < ix2 - ix1 := sub_pos.mpr hx
    have hih : 0 < iy2 - iy1 := sub_pos.mpr hy
    have hiwa : ix2 - ix1 ≤ w1 := by
      have h1a : ix2 ≤ x1 + w1 := min_le_left _ _
      have h1b : x1 ≤ ix1 := le_max_left _ _
      linarith
    have hiwb : ix2 - ix1 ≤ w2 := by
      have h1a : ix2 ≤ x2 + w2 := min_le_right _ _
      have h1b : x2 ≤ ix1 := le_max_right _ _
      linarith
    have hiha : iy2 - iy1 ≤ h1 := by
      have h1a : iy2 ≤ y1 + h1 := min_le_left _ _
      have h1b : y1 ≤ iy1 := le_max_left _ _
      linarith
    have hihb : iy2 - iy1 ≤ h2 := by
      have h1a : iy2 ≤ y2 + h2 := min_le_right _ _
      have h1b : y2 ≤ iy1 := le_max_right _ _
      linarith
    have hinter1 : (ix2 - ix1) * (iy2 - iy1) ≤ w1 * h1 :=
      mul_le_mul hiwa hiha (le_of_lt hih) (le_trans (le_of_lt hiw) hiwa)
    have hinter2 : (ix2 - ix1) * (iy2 - iy1) ≤ w2 * h2 :=
      mul_le_mul hiwb hihb (le_of_lt hih) (le_trans (le_of_lt hiw) hiwb)
    have hinterpos : 0 < (ix2 - ix1) * (iy2 - iy1) := mul_pos hiw hih
    have hunion : (ix2 - ix1) * (iy2 - iy1) ≤
        w1 * h1 + w2 * h2 - (ix2 - ix1) * (iy2 - iy1) := by linarith
    have hupos : 0 < w1 * h1 + w2 * h2 - (ix2 - ix1) * (iy2 - iy1) := by linarith
    rw [if_neg (not_le.mpr hupos)]
    refine ⟨?_, ?_, ?_, ?_⟩
    · apply div_nonneg
      · exact_mod_cast le_of_lt hinterpos
      · exact_mod_cast le_of_lt hupos
    · rw [div_le_one (by exact_mod_cast hupos)]
      exact_mod_cast hunion
    · intro hcontra
      exact absurd hcontra (by push_neg; exact ⟨hx, hy⟩)
    · intro hcontra
      exact absurd hcontra (not_le.mpr hupos)

/-- Witness for C10: the bounds instantiated at two concrete overlapping
10 by 10 boxes. -/
theorem C10_iou_bounds_witness :
    0 ≤ computeIou (0, 0, 10, 10) (5, 5, 10, 10) ∧
    computeIou (0, 0, 10, 10) (5, 5, 10, 10) ≤ 1 := by
  have h := C10_iou_bounds 0 0 10 10 5 5 10 10
    (by norm_num) (by norm_num) (by norm_num) (by norm_num)
  exact ⟨h.1, h.2.1⟩

/-- TrackedFace.update_tracker effect on the consecutive-failure counter:
reset to 0 on success, increment on failure. -/
def updateTrackerFailures (fails : ℕ) (success : Bool) : ℕ :=
  if success then 0 else fails + 1

/-- FrameTracker._run_tracking on the (face_id, tracking_failures) view of
tracked_faces: every tracker is updated (success given by upd), then a track
is removed when its update failed OR its failure count reached
max_tracking_failures. -/
def runTracking (maxFailures : ℕ) (tracks : List (ℕ × ℕ)) (upd : ℕ → Bool) :
    List (ℕ × ℕ) :=
  tracks.filterMap (fun t =>
    let s := upd t.1
    let f := updateTrackerFailures t.2 s
    if s = false ∨ maxFailures ≤ f then none else some (t.1, f))

/-- Claim C3 names a real divergence: with max_tracking_failures = 3, a track
with zero prior failures whose update fails once has its counter set to
1 < 3, yet _run_tracking removes it immediately (the eviction test is
"not success or failures >= max", so any single failure evicts); successful
updates do reset the counter to 0 and keep the track. -/
theorem C3_eviction_on_first_failure :
    runTracking 3 [(0, 0)] (fun _ => false) = [] ∧
    updateTrackerFailures 0 false = 1 ∧
    1 < 3 ∧
    runTracking 3 [(0, 2)] (fun _ => true) = [(0, 0)] := by
  refine ⟨?_, rfl, by norm_num, ?_⟩
  · rfl
  · rfl

/-- Live-track state of a FrameTracker: tracked_faces as an insertion-ordered
list of (face_id, bbox), and next_face_id. -/
structure FTState where
  tracks : List (ℕ × Box)
  nextFaceId : ℕ
deriving DecidableEq, Repr

/-- One step of the inner loop of FrameTracker._run_detection over the
enumerated detections: skip used indices, keep the detection with the
largest IoU found so far provided it exceeds both the running best and the
0.3 threshold. -/
def pickStep (tbox : Box) (used : List ℕ) (acc : ℚ × Option (ℕ × Box))
    (p : ℕ × Box) : ℚ × Option (ℕ × Box) :=
  if p.1 ∈ used then acc
  else if computeIou tbox p.2 > acc.1 ∧ computeIou tbox p.2 > 3/10 then
    (computeIou tbox p.2, some p)
  else acc

/-- The per-track matching loop of _run_detection: the best unused detection
for one existing track (index and box), if any. -/
def pickBest (tbox : Box) (dets : List Box) (used : List ℕ) : Option (ℕ × Box) :=
  (dets.enum.foldl (pickStep tbox used) (0, none)).2

/-- One step of the outer loop of _run_detection over existing tracks: a
matched track keeps its id, takes the matched detection's box, and marks the
detection index used. -/
def matchStep (dets : List Box) (acc : List (ℕ × Box) × List ℕ) (t : ℕ × Box) :
    List (ℕ × Box) × List ℕ :=
  match pickBest t.2 dets acc.2 with
  | some p => (acc.1 ++ [(t.1, p.2)], p.1 :: acc.2)
  | none => acc

/-- The trailing loop of _run_detection: every detection whose index was not
used becomes a new track with the next fresh id. -/
def freshStep (used : List ℕ) (acc : List (ℕ × Box) × ℕ) (p : ℕ × Box) :
    List (ℕ × Box) × ℕ :=
  if p.1 ∈ used then acc else (acc.1 ++ [(acc.2, p.2)], acc.2 + 1)

/-- FrameTracker._run_detection on the (face_id, bbox) view of tracked_faces:
match existing tracks (in insertion order) to detections, then append new
tracks for unmatched detections. -/
def runDetection (st : FTState) (dets : List Box) : FTState :=
  let m := st.tracks.foldl (matchStep dets) ([], [])
  let n := dets.enum.foldl (freshStep m.2) ([], st.nextFaceId)
  ⟨m.1 ++ n.1, n.2⟩

/-- Claim C5 fails as stated: with track 0 at (5,0,10,10), track 1 at
(0,0,10,10) and one detection at (0,0,10,10), the pair (track 1, detection)
has the strictly highest IoU (1 versus 1/3, both above 0.3), so
highest-overlap-first matching would keep track 1; the code instead matches
tracks in insertion order, so track 0 claims the detection and track 1 is
dropped. -/
theorem C5_counterexample :
    computeIou (5, 0, 10, 10) (0, 0, 10, 10) = 1/3 ∧
    computeIou (0, 0, 10, 10) (0, 0, 10, 10) = 1 ∧
    ((3 : ℚ)/10 < 1/3 ∧ (1 : ℚ)/3 < 1) ∧
    runDetection ⟨[(0, (5, 0, 10, 10)), (1, (0, 0, 10, 10))], 2⟩ [(0, 0, 10, 10)] =
      ⟨[(0, (0, 0, 10, 10))], 2⟩ := by
  have hiou1 : computeIou (5, 0, 10, 10) (0, 0, 10, 10) = 1/3 := by
    norm_num [computeIou]
  have hiou2 : computeIou (0, 0, 10, 10) (0, 0, 10, 10) = 1 := by
    norm_num [computeIou]
  refine ⟨hiou1, hiou2, by norm_num, ?_⟩
  show runDetection ⟨[(0, (5, 0, 10, 10)), (1, (0, 0, 10, 10))], 2⟩ [(0, 0, 10, 10)] =
      ⟨[(0, (0, 0, 10, 10))], 2⟩
  norm_num [runDetection, matchStep, freshStep, pickBest, pickStep,
    List.enum, List.enumFrom, hiou1, hiou2]

/-! ### Detection reconciliation lemmas -/

theorem mem_of_mem_enum {p : ℕ × Box} {l : List Box} (h : p ∈ l.enum) : p.2 ∈ l :=
  List.getElem?_mem (List.mem_enum_iff_getElem?.mp h)

theorem pickAux_mem (tbox : Box) (used : List ℕ) (l : List (ℕ × Box)) :
    ∀ (acc : ℚ × Option (ℕ × Box)) (p : ℕ × Box),
      (l.foldl (pickStep tbox used) acc).2 = some p → acc.2 = some p ∨ p ∈ l := by
  induction l with
  | nil =>
    intro acc p h
    exact Or.inl h
  | cons q l' ih =>
    intro acc p h
    rw [List.foldl_cons] at h
    rcases ih (pickStep tbox used acc q) p h with h' | h'
    · unfold pickStep at h'
      split_ifs at h' with h1 h2
      · exact Or.inl h'
      · have hq : q = p := Option.some.inj h'
        refine Or.inr ?_
        rw [← hq]
        exact List.mem_cons_self _ _
      · exact Or.inl h'
    · exact Or.inr (List.mem_cons_of_mem _ h')

theorem pickBest_mem {tbox : Box} {dets : List Box} {used : List ℕ} {p : ℕ × Box}
    (h : pickBest tbox dets used = some p) : p.2 ∈ dets := by
  unfold pickBest at h
  rcases pickAux_mem tbox used dets.enum (0, none) p h with h' | h'
  · cases h'
  · exact mem_of_mem_enum h'

theorem matched_mem (dets : List Box) (ts : List (ℕ × Box)) :
    ∀ (acc : List (ℕ × Box) × List ℕ) (t : ℕ × Box),
      t ∈ (ts.foldl (matchStep dets) acc).1 →
      t ∈ acc.1 ∨ (t.1 ∈ ts.map Prod.fst ∧ t.2 ∈ dets) := by
  induction ts with
  | nil =>
    intro acc t h
    exact Or.inl h
  | cons u ts' ih =>
    intro acc t h
    rw [List.foldl_cons] at h
    rcases ih (matchStep dets acc u) t h with h' | h'
    · unfold matchStep at h'
      cases hp : pickBest u.2 dets acc.2 with
      | none =>
        rw [hp] at h'
        exact Or.inl h'
      | some p =>
        rw [hp] at h'
        rcases List.mem_append.mp h' with h'' | h''
        · exact Or.inl h''
        · have ht : t = (u.1, p.2) := by simpa using h''
          refine Or.inr ⟨?_, ?_⟩
          · rw [ht]
            simp
          · have hsnd : t.2 = p.2 := by rw [ht]
            rw [hsnd]
            exact pickBest_mem hp
    · refine Or.inr ⟨?_, h'.2⟩
      simp only [List.map_cons, List.mem_cons]
      exact Or.inr h'.1

theorem fresh_char (used : List ℕ) (l : List (ℕ × Box)) :
    ∀ (acc : List (ℕ × Box) × ℕ),
      ∃ nw : List (ℕ × Box),
        (l.foldl (freshStep used) acc).1 = acc.1 ++ nw ∧
        nw.map Prod.fst = List.range' acc.2 nw.length ∧
        (l.foldl (freshStep used) acc).2 = acc.2 + nw.length ∧
        (∀ t ∈ nw, t.2 ∈ l.map Prod.snd) := by
  induction l with
  | nil =>
    intro acc
    exact ⟨[], by simp, by simp, by simp, by simp⟩
  | cons q l' ih =>
    intro acc
    rw [List.foldl_cons]
    by_cases hq : q.1 ∈ used
    · have hfs : freshStep used acc q = acc := by
        unfold freshStep
        rw [if_pos hq]
      rw [hfs]
      rcases ih acc with ⟨nw, h1, h2, h3, h4⟩
      refine ⟨nw, h1, h2, h3, ?_⟩
      intro t ht
      simp only [List.map_cons, List.mem_cons]
      exact Or.inr (h4 t ht)
    · have hfs : freshStep used acc q = (acc.1 ++ [(acc.2, q.2)], acc.2 + 1) := by
        unfold freshStep
        rw [if_neg hq]
      rw [hfs]
      rcases ih (acc.1 ++ [(acc.2, q.2)], acc.2 + 1) with ⟨nw, h1, h2, h3, h4⟩
      refine ⟨(acc.2, q.2) :: nw, ?_, ?_, ?_, ?_⟩
      · rw [h1]
        simp
      · simp only [List.map_cons, List.length_cons]
        rw [h2, List.range'_succ]
      · rw [h3]
        simp only [List.length_cons]
        omega
      · intro t ht
        rcases List.mem_cons.mp ht with rfl | ht'
        · simp
        · simp only [List.map_cons, List.mem_cons]
          exact Or.inr (h4 t ht')

/-- Claim C5 (amended): on a detection pass, existing tracks claim detections
one-to-one greedily in track insertion order (each track takes the
not-yet-claimed detection of highest IoU strictly above 0.3) — not globally
highest-overlap-first; the resulting track set is exactly the matched tracks
(keeping their ids, with the matched detection's box) followed by new tracks
whose ids are consecutive fresh values from next_face_id, which is advanced
by their count so ids are never reused; and a single tracked object whose
detection overlaps its previous box with IoU above 0.3 keeps its track id. -/
theorem C5_track_matching :
    (∀ (st : FTState) (dets : List Box),
      ∃ matched nw : List (ℕ × Box),
        (runDetection st dets).tracks = matched ++ nw ∧
        (∀ t ∈ matched, t.1 ∈ st.tracks.map Prod.fst ∧ t.2 ∈ dets) ∧
        (∀ t ∈ nw, t.2 ∈ dets) ∧
        nw.map Prod.fst = List.range' st.nextFaceId nw.length ∧
        (runDetection st dets).nextFaceId = st.nextFaceId + nw.length) ∧
    (∀ (i : ℕ) (b d : Box) (nid : ℕ), 3/10 < computeIou b d →
      runDetection ⟨[(i, b)], nid⟩ [d] = ⟨[(i, d)], nid⟩) := by
  constructor
  · intro st dets
    rcases fresh_char (st.tracks.foldl (matchStep dets) ([], [])).2 dets.enum
      ([], st.nextFaceId) with ⟨nw, h1, h2, h3, h4⟩
    refine ⟨(st.tracks.foldl (matchStep dets) ([], [])).1, nw, ?_, ?_, ?_, h2, ?_⟩
    · show (st.tracks.foldl (matchStep dets) ([], [])).1 ++
          (dets.enum.foldl (freshStep (st.tracks.foldl (matchStep dets) ([], [])).2)
            ([], st.nextFaceId)).1 = _
      rw [h1]
      simp
    · intro t ht
      rcases matched_mem dets st.tracks ([], []) t ht with h' | h'
      · cases h'
      · exact h'
    · intro t ht
      have := h4 t ht
      rcases List.mem_map.mp this with ⟨p, hp, hpe⟩
      rw [← hpe]
      exact mem_of_mem_enum hp
    · show (dets.enum.foldl (freshStep (st.tracks.foldl (matchStep dets) ([], [])).2)
          ([], st.nextFaceId)).2 = _
      rw [h3]
  · intro i b d nid h
    have h0 : computeIou b d > 0 := lt_trans (by norm_num) h
    show (⟨([(i, b)].foldl (matchStep [d]) ([], [])).1 ++
        ([d].enum.foldl (freshStep ([(i, b)].foldl (matchStep [d]) ([], [])).2)
          ([], nid)).1,
        ([d].enum.foldl (freshStep ([(i, b)].foldl (matchStep [d]) ([], [])).2)
          ([], nid)).2⟩ : FTState) = ⟨[(i, d)], nid⟩
    have hpick : pickBest b [d] [] = some (0, d) := by
      unfold pickBest pickStep
      simp only [List.enum, List.enumFrom, List.foldl_cons, List.foldl_nil]
      rw [if_neg (List.not_mem_nil 0)]
      rw [if_pos ⟨h0, h⟩]
    have hm : [(i, b)].foldl (matchStep [d]) ([], []) = ([(i, d)], [0]) := by
      simp only [List.foldl_cons, List.foldl_nil]
      unfold matchStep
      rw [hpick]
      simp
    rw [hm]
    simp [List.enum, List.enumFrom, freshStep]

/-- Witness for C5 (amended): a single track at (0,0,10,10) matched against a
single detection at (1,1,10,10) (IoU 81/119 above 0.3) keeps its id 7. -/
theorem C5_track_matching_witness :
    (3 : ℚ)/10 < computeIou (0, 0, 10, 10) (1, 1, 10, 10) ∧
    runDetection ⟨[(7, (0, 0, 10, 10))], 9⟩ [(1, 1, 10, 10)] =
      ⟨[(7, (1, 1, 10, 10))], 9⟩ := by
  have h : (3 : ℚ)/10 < computeIou (0, 0, 10, 10) (1, 1, 10, 10) := by
    norm_num [computeIou]
  exact ⟨h, C5_track_matching.2 7 _ _ 9 h⟩

/-! ## FaceValidator and CaptureManager
(src/core/face_validator.py, src/core/capture_manager.py)

Landmark points are (x, y) pairs; the argument order re, le, n, rm, lm follows
the indices landmarks[0..4] (right eye, left eye, nose, right mouth, left
mouth) used by FaceValidator.calculate_pose. -/

/-- FaceValidator.calculate_pose: yaw from the horizontal asymmetry of the
eye landmarks around the nose (0 when the span is zero). -/
def calculatePose (re le n rm lm : ℚ × ℚ) : ℚ :=
  let dist_left_side := |n.1 - re.1|
  let dist_right_side := |le.1 - n.1|
  let total_span := dist_left_side + dist_right_side
  if total_span = 0 then 0
  else (dist_right_side - dist_left_side) / total_span

/-- Modelled from the claim's words, not from the source: yaw as
(rightDist − leftDist) / (rightDist + leftDist) where rightDist is the
horizontal distance from the nose to the right-eye landmark (landmark 0) and
leftDist the horizontal distance from the nose to the left-eye landmark
(landmark 1).  Used only to compare the claimed formula with calculatePose. -/
def claimedYaw (re le n : ℚ × ℚ) : ℚ :=
  let rightDist := |n.1 - re.1|
  let leftDist := |n.1 - le.1|
  (rightDist - leftDist) / (rightDist + leftDist)

/-- The pose gate of CaptureManager.process_frame for the current target. -/
def passedAngle (target : String) (yaw : ℚ) : Bool :=
  if target = "front" then decide (-(1/5) < yaw ∧ yaw < 1/5)
  else if target = "left" then decide ((2/5 : ℚ) < yaw)
  else if target = "right" then decide (yaw < -(2/5))
  else false

/-- Claim C6 fails as stated: with the right-eye landmark at x = 0, the
left-eye landmark at x = 10 and the nose at x = 2, calculate_pose returns
(8 − 2)/10 = 3/5, while the claimed formula (noseToRightEye − noseToLeftEye)
over their sum gives (2 − 8)/10 = −3/5: the claim has the two distances
swapped (equivalently, the sign flipped). -/
theorem C6_counterexample :
    calculatePose (0, 0) (10, 0) (2, 0) (0, 5) (10, 5) = 3/5 ∧
    claimedYaw (0, 0) (10, 0) (2, 0) = -(3/5) ∧
    calculatePose (0, 0) (10, 0) (2, 0) (0, 5) (10, 5) ≠
      claimedYaw (0, 0) (10, 0) (2, 0) := by
  have h1 : calculatePose (0, 0) (10, 0) (2, 0) (0, 5) (10, 5) = 3/5 := by
    norm_num [calculatePose, abs_of_nonneg]
  have h2 : claimedYaw (0, 0) (10, 0) (2, 0) = -(3/5) := by
    norm_num [claimedYaw, abs_of_nonneg, abs_of_nonpos]
  refine ⟨h1, h2, ?_⟩
  rw [h1, h2]
  norm_num

/-- Claim C6 (amended): the estimated yaw equals
(leftEyeDist − rightEyeDist) / (rightEyeDist + leftEyeDist) — the negation of
the claimed formula — where rightEyeDist = |nose.x − rightEye.x| and
leftEyeDist = |leftEye.x − nose.x| (landmarks 0 and 1); and the capture pose
gate passes exactly when |yaw| < 0.2 for target front, yaw > 0.4 for target
left, and yaw < −0.4 for target right. -/
theorem C6_yaw_and_pose_gate :
    (∀ re le n rm lm : ℚ × ℚ, |n.1 - re.1| + |le.1 - n.1| ≠ 0 →
      calculatePose re le n rm lm =
        (|le.1 - n.1| - |n.1 - re.1|) / (|n.1 - re.1| + |le.1 - n.1|) ∧
      calculatePose re le n rm lm = -(claimedYaw re le n)) ∧
    (∀ yaw : ℚ,
      (passedAngle "front" yaw = true ↔ |yaw| < 1/5) ∧
      (passedAngle "left" yaw = true ↔ 2/5 < yaw) ∧
      (passedAngle "right" yaw = true ↔ yaw < -(2/5))) := by
  constructor
  · intro re le n rm lm hspan
    have hform : calculatePose re le n rm lm =
        (|le.1 - n.1| - |n.1 - re.1|) / (|n.1 - re.1| + |le.1 - n.1|) := by
      unfold calculatePose
      rw [if_neg hspan]
    refine ⟨hform, ?_⟩
    rw [hform]
    unfold claimedYaw
    rw [abs_sub_comm n.1 le.1]
    rw [neg_div', neg_sub]
  · intro yaw
    refine ⟨?_, ?_, ?_⟩
    · show (if ("front" : String) = "front" then decide (-(1/5) < yaw ∧ yaw < 1/5)
          else _) = true ↔ _
      rw [if_pos rfl, decide_eq_true_iff, abs_lt]
    · show (if ("left" : String) = "front" then _
          else if ("left" : String) = "left" then decide ((2/5 : ℚ) < yaw)
          else _) = true ↔ _
      rw [if_neg (by decide), if_pos rfl, decide_eq_true_iff]
    · show (if ("right" : String) = "front" then _
          else if ("right" : String) = "left" then _
          else if ("right" : String) = "right" then decide (yaw < -(2/5))
          else false) = true ↔ _
      rw [if_neg (by decide), if_neg (by decide), if_pos rfl, decide_eq_true_iff]

/-- Witness for C6 (amended): the yaw formula instantiated at the concrete
landmarks of the counterexample scenario (span 10, nonzero). -/
theorem C6_yaw_and_pose_gate_witness :
    calculatePose (0, 0) (10, 0) (2, 0) (0, 5) (10, 5) =
      -(claimedYaw (0, 0) (10, 0) (2, 0)) ∧
    (passedAngle "left" (1/2) = true ↔ (2 : ℚ)/5 < 1/2) := by
  constructor
  · exact (C6_yaw_and_pose_gate.1 (0, 0) (10, 0) (2, 0) (0, 5) (10, 5)
      (by norm_num [abs_of_nonneg])).2
  · exact (C6_yaw_and_pose_gate.2 (1/2)).2.1

/-- CaptureManager session state (CaptureState enum in capture_manager.py). -/
inductive CaptureState where
  | WAITING
  | CAPTURING
  | COMPLETED
deriving DecidableEq, Repr

/-- CaptureManager state: current_student_id, current_idx into
required_angles, captured_angles (as the ordered list of captured targets),
last_capture_time and the session state. -/
structure CMState where
  currentStudentId : Option String
  currentIdx : ℕ
  capturedAngles : List String
  lastCaptureTime : ℚ
  state : CaptureState
deriving DecidableEq, Repr

/-- CaptureManager.required_angles. -/
def requiredAngles : List String := ["front", "left", "right"]

/-- CaptureManager.reset. -/
def resetCM : CMState := ⟨none, 0, [], 0, CaptureState.WAITING⟩

/-- CaptureManager.start_session (the storage directory creation is
external). -/
def startSession (student_id : String) : CMState :=
  { resetCM with currentStudentId := some student_id, state := CaptureState.CAPTURING }

/-- CaptureManager.get_current_target. -/
def getCurrentTarget (st : CMState) : Option String :=
  requiredAngles.get? st.currentIdx

/-- CaptureManager.update_status: set COMPLETED when there is no next target
(status messages are display-only and omitted). -/
def updateStatus (st : CMState) : CMState :=
  match getCurrentTarget st with
  | some _ => st
  | none => { st with state := CaptureState.COMPLETED }

/-- One frame fed to CaptureManager.process_frame, with the external
collaborators' outcomes as fields: whether the detector found a face, whether
the quality gate passed, the yaw computed from the landmarks, the wall-clock
time, and whether storage.save_image succeeded. -/
structure FrameInput where
  faceDetected : Bool
  qualityOk : Bool
  yaw : ℚ
  now : ℚ
  saveOk : Bool
deriving DecidableEq, Repr

/-- CaptureManager.process_frame (state effect only; the returned
visualization frame and status dict are display-only). -/
def processFrame (st : CMState) (f : FrameInput) : CMState :=
  if st.state ≠ CaptureState.CAPTURING then st
  else if f.faceDetected = false then st
  else if f.qualityOk = false then st
  else
    let passed := match getCurrentTarget st with
      | some t => passedAngle t f.yaw
      | none => false
    if passed = true ∧ 1 < f.now - st.lastCaptureTime then
      if f.saveOk then
        updateStatus { st with
          capturedAngles := st.capturedAngles ++ [(getCurrentTarget st).getD ""],
          currentIdx := st.currentIdx + 1,
          lastCaptureTime := f.now }
      else st
    else st

theorem processFrame_capture_step (st : CMState) (f : FrameInput) (tgt : String)
    (hstate : st.state = CaptureState.CAPTURING)
    (hface : f.faceDetected = true) (hq : f.qualityOk = true)
    (htgt : getCurrentTarget st = some tgt)
    (hpass : passedAngle tgt f.yaw = true)
    (htime : 1 < f.now - st.lastCaptureTime)
    (hsave : f.saveOk = true) :
    processFrame st f = updateStatus { st with
      capturedAngles := st.capturedAngles ++ [tgt],
      currentIdx := st.currentIdx + 1,
      lastCaptureTime := f.now } := by
  unfold processFrame
  rw [if_neg (by simp [hstate])]
  rw [if_neg (by simp [hface])]
  rw [if_neg (by simp [hq])]
  simp only [htgt]
  rw [if_pos ⟨hpass, htime⟩, hsave]
  simp

theorem processFrame_no_pass (st : CMState) (f : FrameInput) (tgt : String)
    (hstate : st.state = CaptureState.CAPTURING)
    (htgt : getCurrentTarget st = some tgt)
    (hpass : passedAngle tgt f.yaw = false) :
    processFrame st f = st := by
  unfold processFrame
  rw [if_neg (by simp [hstate])]
  by_cases hface : f.faceDetected = false
  · rw [if_pos hface]
  · rw [if_neg hface]
    by_cases hq : f.qualityOk = false
    · rw [if_pos hq]
    · rw [if_neg hq]
      simp only [htgt]
      rw [if_neg (by simp [hpass])]

/-- Claim C7: a session started with some identity, fed quality-passing
frames meeting the front, left, right pose gates in order with more than one
second between captures and successful persistence, ends COMPLETED with
exactly the three poses captured in targeted order; and a frame satisfying
the left gate (yaw > 0.4) while the target is still front leaves the session
unchanged. -/
theorem C7_capture_progression :
    (∀ (sid : String) (y1 y2 y3 t1 t2 t3 : ℚ),
      -(1/5) < y1 → y1 < 1/5 → 2/5 < y2 → y3 < -(2/5) →
      1 < t1 → 1 < t2 - t1 → 1 < t3 - t2 →
      processFrame (processFrame (processFrame (startSession sid)
          ⟨true, true, y1, t1, true⟩) ⟨true, true, y2, t2, true⟩)
          ⟨true, true, y3, t3, true⟩ =
        ⟨some sid, 3, ["front", "left", "right"], t3, CaptureState.COMPLETED⟩) ∧
    (∀ (sid : String) (y t : ℚ), 2/5 < y →
      processFrame (startSession sid) ⟨true, true, y, t, true⟩ = startSession sid) := by
  constructor
  · intro sid y1 y2 y3 t1 t2 t3 hy1a hy1b hy2 hy3 ht1 ht2 ht3
    have hp1 : passedAngle "front" y1 = true := by
      unfold passedAngle
      rw [if_pos rfl]
      exact decide_eq_true ⟨hy1a, hy1b⟩
    have hp2 : passedAngle "left" y2 = true := by
      unfold passedAngle
      rw [if_neg (by decide), if_pos rfl]
      exact decide_eq_true hy2
    have hp3 : passedAngle "right" y3 = true := by
      unfold passedAngle
      rw [if_neg (by decide), if_neg (by decide), if_pos rfl]
      exact decide_eq_true hy3
    have e1 : processFrame (startSession sid) ⟨true, true, y1, t1, true⟩ =
        ⟨some sid, 1, ["front"], t1, CaptureState.CAPTURING⟩ := by
      rw [processFrame_capture_step (startSession sid) ⟨true, true, y1, t1, true⟩
        "front" rfl rfl rfl rfl hp1 (by simpa [startSession, resetCM] using ht1) rfl]
      rfl
    have e2 : processFrame (⟨some sid, 1, ["front"], t1, CaptureState.CAPTURING⟩ : CMState)
        ⟨true, true, y2, t2, true⟩ =
        ⟨some sid, 2, ["front", "left"], t2, CaptureState.CAPTURING⟩ := by
      rw [processFrame_capture_step ⟨some sid, 1, ["front"], t1, CaptureState.CAPTURING⟩
        ⟨true, true, y2, t2, true⟩ "left" rfl rfl rfl rfl hp2 ht2 rfl]
      rfl
    have e3 : processFrame (⟨some sid, 2, ["front", "left"], t2,
          CaptureState.CAPTURING⟩ : CMState) ⟨true, true, y3, t3, true⟩ =
        ⟨some sid, 3, ["front", "left", "right"], t3, CaptureState.COMPLETED⟩ := by
      rw [processFrame_capture_step ⟨some sid, 2, ["front", "left"], t2,
          CaptureState.CAPTURING⟩ ⟨true, true, y3, t3, true⟩ "right" rfl rfl rfl rfl
        hp3 ht3 rfl]
      rfl
    rw [e1, e2, e3]
  · intro sid y t hy
    have hnp : passedAngle "front" y = false := by
      unfold passedAngle
      rw [if_pos rfl]
      refine decide_eq_false ?_
      intro hcontra
      have h5 : (2 : ℚ)/5 < 1/5 := lt_trans hy hcontra.2
      norm_num at h5
    exact processFrame_no_pass (startSession sid) _ "front" rfl rfl hnp

/-- Witness for C7: the progression instantiated with yaws 0, 1/2, −1/2 at
times 2, 4, 6 for identity "S9", and the no-advance part with yaw 1 at time
5. -/
theorem C7_capture_progression_witness :
    processFrame (processFrame (processFrame (startSession "S9")
        ⟨true, true, 0, 2, true⟩) ⟨true, true, 1/2, 4, true⟩)
        ⟨true, true, -(1/2), 6, true⟩ =
      ⟨some "S9", 3, ["front", "left", "right"], 6, CaptureState.COMPLETED⟩ ∧
    processFrame (startSession "S9") ⟨true, true, 1, 5, true⟩ = startSession "S9" := by
  constructor
  · exact C7_capture_progression.1 "S9" 0 (1/2) (-(1/2)) 2 4 6
      (by norm_num) (by norm_num) (by norm_num) (by norm_num)
      (by norm_num) (by norm_num) (by norm_num)
  · exact C7_capture_progression.2 "S9" 1 5 (by norm_num)

end Quickroll
